import Mathlib

/-!
Shallow embedding of the rules engine of the oshi board-game test-play app
(src/utils/gameLogic.ts, src/utils/dataPersistence.ts and the game-context
reducer), together with theorems checking the natural-language specification
against it.  Machine numbers are modelled as `Int` (JS numbers used as small
integers) or `Nat` where the source only ever holds non-negative values;
`undefined`-able fields become `Option`; thrown exceptions become `Option`
results.
-/

namespace OshiGame

/-- Player colors, from src/unnamed/part_000 type `PlayerColor`. -/
inductive PlayerColor | red | blue | green | yellow
deriving DecidableEq, Repr

/-- Game phases, from the `GamePhase` union type. -/
inductive GamePhase
  | setup | labor | oshikatsuDecision | oshikatsuGoods
  | oshikatsuPlacement | fansaTime | roundEnd | gameEnd
deriving DecidableEq, Repr

/-- Goods kinds, from the `GoodsType` union type. -/
inductive GoodsType | uchiwa | penlight | sashiire
deriving DecidableEq, Repr

/-- Oshikatsu decision, from the `OshikatsuDecision` union type. -/
inductive OshikatsuDecision | participate | rest
deriving DecidableEq, Repr

/-- Payout table of a reward card: JS object with keys 1..6. -/
structure Rewards where
  r1 : Int
  r2 : Int
  r3 : Int
  r4 : Int
  r5 : Int
  r6 : Int
deriving DecidableEq, Repr

/-- Lookup `rewards[d]` for a die face `d` (1..6); any other key is `0`
(a JS lookup outside the keys yields `undefined`, but every call site first
range-checks `d`, so the default is never observable). -/
def Rewards.at (r : Rewards) (d : Nat) : Int :=
  match d with
  | 1 => r.r1 | 2 => r.r2 | 3 => r.r3 | 4 => r.r4 | 5 => r.r5 | 6 => r.r6
  | _ => 0

/-- Reward distribution card, from interface `RewardDistributionCard`. -/
structure RewardDistributionCard where
  id : String
  name : String
  rewards : Rewards
deriving DecidableEq, Repr

/-- Otaku piece, from interface `OtakuPiece`. -/
structure OtakuPiece where
  id : String
  playerId : String
  boardSpotId : Option Nat
  goods : Option GoodsType
  isKagebunshin : Bool
deriving DecidableEq, Repr

/-- Player, from interface `Player`. -/
structure Player where
  id : String
  name : String
  color : PlayerColor
  money : Int
  points : Int
  otakuPieces : List OtakuPiece
  selectedRewardCard : Option RewardDistributionCard
  oshikatsuDecision : Option OshikatsuDecision
deriving DecidableEq, Repr

/-- Oshi marker identifier, the `'A' | 'B' | 'C'` union. -/
inductive OshiId | A | B | C
deriving DecidableEq, Repr

/-- Oshi piece, from interface `OshiPiece`. -/
structure OshiPiece where
  id : OshiId
  currentSpotId : Option Nat
deriving DecidableEq, Repr

/-- Board spot, from interface `BoardSpot`. -/
structure BoardSpot where
  id : Nat
  position : Nat × Nat
  otakuPieces : List OtakuPiece
  oshiPiece : Option OshiPiece
deriving DecidableEq, Repr

/-- The 2x4 board, from interface `HanamichiBoard`. -/
structure HanamichiBoard where
  spots : List BoardSpot
deriving DecidableEq, Repr

/-- Card orientation, the `'front' | 'back'` union. -/
inductive Orientation | front | back
deriving DecidableEq, Repr

/-- Card rotation, the `0 | 90 | 180 | 270` union. -/
inductive Rotation | rot0 | rot90 | rot180 | rot270
deriving DecidableEq, Repr

/-- Fanservice spot card, from interface `FanserviceSpotCard`. -/
structure FanserviceSpotCard where
  id : String
  spots : Nat × Nat × Nat
  orientation : Orientation
  rotation : Rotation
deriving DecidableEq, Repr

/-- One labor record of a round, from `RoundResult.laborResults`. -/
structure LaborResult where
  playerId : String
  selectedCard : String
  diceResult : Nat
  reward : Int
deriving DecidableEq, Repr

/-- One decision record of a round, from `RoundResult.oshikatsuDecisions`. -/
structure DecisionRecord where
  playerId : String
  decision : OshikatsuDecision
deriving DecidableEq, Repr

/-- One scoring record of a round, from `RoundResult.fansaResults`. -/
structure FansaResult where
  playerId : String
  pointsEarned : Int
  breakdown : List String
deriving DecidableEq, Repr

/-- Round result, from interface `RoundResult`. -/
structure RoundResult where
  roundNumber : Nat
  laborResults : List LaborResult
  oshikatsuDecisions : List DecisionRecord
  fansaResults : List FansaResult
deriving DecidableEq, Repr

/-- Game state, from interface `GameState`. -/
structure GameState where
  hanamichiBoardState : HanamichiBoard
  oshiPieces : List OshiPiece
  fanserviceSpotCards : List FanserviceSpotCard
  revealedCards : List FanserviceSpotCard
  rewardDistributionCards : List RewardDistributionCard
  currentDiceResult : Option Nat
  roundHistory : List RoundResult
deriving DecidableEq, Repr

/-- Turn manager, from interface `TurnManager`; the JS object map
`phaseActions : { [playerId: string]: boolean }` is modelled as an
association list in key-insertion order. -/
structure TurnManager where
  currentPlayer : Nat
  waitingForPlayers : List String
  phaseActions : List (String × Bool)
deriving DecidableEq, Repr

/-- Game session, from interface `GameSession`; `createdAt : Date` is
modelled as milliseconds since the Unix epoch. -/
structure GameSession where
  id : String
  players : List Player
  currentRound : Nat
  currentPhase : GamePhase
  activePlayerIndex : Nat
  gameState : GameState
  turnManager : TurnManager
  createdAt : Nat
deriving DecidableEq, Repr

/-! ## gameLogic.ts: phase classification and transition -/

/-- From `isSimultaneousPhase`. -/
def isSimultaneousPhase (phase : GamePhase) : Bool :=
  [GamePhase.labor, GamePhase.oshikatsuDecision, GamePhase.oshikatsuGoods,
   GamePhase.oshikatsuPlacement].contains phase

/-- From `isTurnBasedPhase`. -/
def isTurnBasedPhase (phase : GamePhase) : Bool :=
  [GamePhase.fansaTime].contains phase

/-- Object-map read `phaseActions[id]`; `none` models `undefined`. -/
def lookupAction : List (String × Bool) → String → Option Bool
  | [], _ => none
  | kv :: rest, id => if kv.1 == id then some kv.2 else lookupAction rest id

/-- From `canTransitionToNextPhase`.  In the turn-based branch the source
reads `players[activePlayerIndex].id`, which presupposes the index is in
range (a session invariant); an out-of-range read is modelled as `false`. -/
def canTransitionToNextPhase (s : GameSession) : Bool :=
  if isSimultaneousPhase s.currentPhase then
    s.players.all (fun p => lookupAction s.turnManager.phaseActions p.id == some true)
  else if isTurnBasedPhase s.currentPhase then
    match s.players.get? s.activePlayerIndex with
    | some p => lookupAction s.turnManager.phaseActions p.id == some true
    | none => false
  else
    true

/-! ## gameLogic.ts: labor phase -/

/-- From `calculateLaborReward`; the thrown range error is `none`. -/
def calculateLaborReward (selectedCard : RewardDistributionCard) (diceResult : Nat) :
    Option Int :=
  if diceResult < 1 ∨ diceResult > 6 then none
  else some (selectedCard.rewards.at diceResult)

/-- From `updatePlayerMoney`: money is clamped at 0. -/
def updatePlayerMoney (player : Player) (amount : Int) : Player :=
  { player with money := max 0 (player.money + amount) }

/-- From `processLaborPhase`; a player without a selected card (or an
out-of-range die) makes the source throw, modelled as `none`. -/
def processLaborPhase : List Player → Nat → Option (List Player × List LaborResult)
  | [], _ => some ([], [])
  | p :: rest, d =>
    match p.selectedRewardCard with
    | none => none
    | some card =>
      match calculateLaborReward card d with
      | none => none
      | some reward =>
        match processLaborPhase rest d with
        | none => none
        | some (ups, res) =>
          some (updatePlayerMoney p reward :: ups,
                { playerId := p.id, selectedCard := card.name,
                  diceResult := d, reward := reward } :: res)

/-! ## gameLogic.ts: fanservice cards -/

/-- Integer range `[lo, hi)`, for the JS `for` loops. -/
def natRange (lo hi : Nat) : List Nat :=
  (List.range hi).drop lo

/-- From `generateAllFanserviceSpotCombinations`: the triple loop
`0 ≤ i < j < k < 8`. -/
def generateAllFanserviceSpotCombinations : List (Nat × Nat × Nat) :=
  (natRange 0 8).flatMap fun i =>
    (natRange (i + 1) 8).flatMap fun j =>
      (natRange (j + 1) 8).map fun k => (i, j, k)

/-- From `createAllFanserviceSpotCards`. -/
def createAllFanserviceSpotCards : List FanserviceSpotCard :=
  (generateAllFanserviceSpotCombinations.enum).map fun si =>
    { id := s!"fanservice-card-{si.1 + 1}"
      spots := si.2
      orientation := Orientation.front
      rotation := Rotation.rot0 }

/-- From `selectRandomFanserviceSpotCards`: the source shuffles a copy of
the deck with an inconsistent comparator (always a permutation) and takes
the first `count` cards.  The permutation produced by the shuffle is taken
as an argument; the length guard throws (`none`) when the deck is too
small. -/
def selectRandomFanserviceSpotCards (shuffledCards : List FanserviceSpotCard)
    (count : Nat) : Option (List FanserviceSpotCard) :=
  if shuffledCards.length < count then none
  else some (shuffledCards.take count)

/-- From `applyRandomCardProperties`: the two random draws are arguments. -/
def applyRandomCardProperties (card : FanserviceSpotCard)
    (orientation : Orientation) (rotation : Rotation) : FanserviceSpotCard :=
  { card with orientation := orientation, rotation := rotation }

/-- From `prepareOshikatsuPhaseCards`, with the shuffle result and the
per-card random orientation/rotation draws as arguments. -/
def prepareOshikatsuPhaseCards (shuffledCards : List FanserviceSpotCard)
    (props : FanserviceSpotCard → Orientation × Rotation) :
    Option (List FanserviceSpotCard) :=
  match selectRandomFanserviceSpotCards shuffledCards 3 with
  | none => none
  | some selectedCards =>
    some (selectedCards.map fun c => applyRandomCardProperties c (props c).1 (props c).2)

/-! ## gameLogic.ts: board geometry -/

/-- From `getAdjacentSpots`: up/down/left/right neighbours in the 2x4 grid,
in that direction order. -/
def getAdjacentSpots (spotId : Nat) : List Nat :=
  let row : Int := (spotId : Int) / 4
  let col : Int := (spotId : Int) % 4
  [((-1 : Int), (0 : Int)), (1, 0), (0, -1), (0, 1)].filterMap fun d =>
    let newRow := row + d.1
    let newCol := col + d.2
    if 0 ≤ newRow ∧ newRow < 2 ∧ 0 ≤ newCol ∧ newCol < 4 then
      some (newRow * 4 + newCol).toNat
    else
      none

/-- From `getOppositeSpot`: same column, other row (never `null`). -/
def getOppositeSpot (spotId : Nat) : Option Nat :=
  let row := spotId / 4
  let col := spotId % 4
  let oppositeRow := if row = 0 then 1 else 0
  some (oppositeRow * 4 + col)

/-! ## gameLogic.ts: fan-service scoring -/

/-- One `{ playerId, points }` record of the point calculators. -/
structure PointResult where
  playerId : String
  points : Nat
deriving DecidableEq, Repr

/-- Index-carrying loop of `calculateBasicPoints`' `forEach`. -/
def basicPointsGo (pointsPerPiece remainder : Nat) : Nat → List OtakuPiece → List PointResult
  | _, [] => []
  | i, piece :: rest =>
    { playerId := piece.playerId,
      points := pointsPerPiece + (if i < remainder then 1 else 0) }
      :: basicPointsGo pointsPerPiece remainder (i + 1) rest

/-- From `calculateBasicPoints`: 6 points split over the occupants, the
first `6 % k` occupants getting one extra. -/
def calculateBasicPoints (_spotId : Nat) (otakuPieces : List OtakuPiece) :
    List PointResult :=
  if otakuPieces.isEmpty then []
  else
    basicPointsGo (6 / otakuPieces.length) (6 % otakuPieces.length) 0 otakuPieces

/-- From `calculateUchiwaBonus`: +1 per uchiwa piece on a spot adjacent to
the oshi spot. -/
def calculateUchiwaBonus (oshiSpotId : Nat) (allOtakuPieces : List OtakuPiece) :
    List PointResult :=
  let adjacentSpots := getAdjacentSpots oshiSpotId
  allOtakuPieces.filterMap fun piece =>
    match piece.boardSpotId with
    | some b =>
      if piece.goods == some GoodsType.uchiwa && adjacentSpots.contains b then
        some { playerId := piece.playerId, points := 1 }
      else none
    | none => none

/-- From `calculatePenlightBonus`: +1 per penlight piece on the spot
opposite the oshi spot. -/
def calculatePenlightBonus (oshiSpotId : Nat) (allOtakuPieces : List OtakuPiece) :
    List PointResult :=
  match getOppositeSpot oshiSpotId with
  | none => []
  | some oppositeSpot =>
    allOtakuPieces.filterMap fun piece =>
      if piece.goods == some GoodsType.penlight && piece.boardSpotId == some oppositeSpot then
        some { playerId := piece.playerId, points := 1 }
      else none

/-- From `applySashiireBonus`: a recipient's share is doubled exactly when
one of the pieces in the `otakuPieces` argument (at the call site: the
pieces at the oshi's spot) is a sashiire piece of that recipient. -/
def applySashiireBonus (_spotId : Nat) (otakuPieces : List OtakuPiece)
    (basicPointResults : List PointResult) : List PointResult :=
  let sashiirePieces := otakuPieces.filter fun piece => piece.goods == some GoodsType.sashiire
  basicPointResults.map fun result =>
    let hasSashiire := sashiirePieces.any fun piece => piece.playerId == result.playerId
    { playerId := result.playerId,
      points := if hasSashiire then result.points * 2 else result.points }

/-- Accumulator entry of `calculateFansaPoints`' `playerPointsMap`
(insertion-ordered, like a JS `Map`). -/
structure PlayerAcc where
  playerId : String
  points : Nat
  breakdown : List String
deriving DecidableEq, Repr

/-- Add points and a breakdown line for a player into the accumulator,
inserting the player at the end on first contribution. -/
def addPoints (acc : List PlayerAcc) (playerId : String) (points : Nat)
    (line : String) : List PlayerAcc :=
  if acc.any (fun e => e.playerId == playerId) then
    acc.map fun e =>
      if e.playerId == playerId then
        { e with points := e.points + points, breakdown := e.breakdown ++ [line] }
      else e
  else
    acc ++ [{ playerId := playerId, points := points, breakdown := [line] }]

/-- Render of an oshi id in the breakdown strings. -/
def OshiId.text : OshiId → String
  | OshiId.A => "A" | OshiId.B => "B" | OshiId.C => "C"

/-- One oshi placement `{ oshiId, spotId }`. -/
structure OshiPlacement where
  oshiId : OshiId
  spotId : Nat
deriving DecidableEq, Repr

/-- Final `{ playerId, totalPoints, breakdown }` record of
`calculateFansaPoints`. -/
structure FansaPointResult where
  playerId : String
  totalPoints : Nat
  breakdown : List String
deriving DecidableEq, Repr

/-- Processing of a single oshi placement inside `calculateFansaPoints`. -/
def fansaStep (boardState : HanamichiBoard) (allOtakuPieces : List OtakuPiece)
    (acc : List PlayerAcc) (pl : OshiPlacement) : List PlayerAcc :=
  match boardState.spots.find? (fun sp => sp.id == pl.spotId) with
  | none => acc
  | some spot =>
    let otakuPiecesAtSpot := spot.otakuPieces
    let basicPoints := calculateBasicPoints pl.spotId otakuPiecesAtSpot
    let sashiireAdjusted := applySashiireBonus pl.spotId otakuPiecesAtSpot basicPoints
    let acc1 := sashiireAdjusted.foldl (fun a r =>
      let originalPoints :=
        ((basicPoints.find? (fun bp => bp.playerId == r.playerId)).map (fun bp => bp.points)).getD 0
      let line :=
        if originalPoints < r.points then
          s!"推し{pl.oshiId.text}目の前(差し入れ2倍): {r.points}ポイント"
        else
          s!"推し{pl.oshiId.text}目の前: {r.points}ポイント"
      addPoints a r.playerId r.points line) acc
    let acc2 := (calculateUchiwaBonus pl.spotId allOtakuPieces).foldl (fun a r =>
      addPoints a r.playerId r.points
        s!"推し{pl.oshiId.text}隣接(うちわ): {r.points}ポイント") acc1
    (calculatePenlightBonus pl.spotId allOtakuPieces).foldl (fun a r =>
      addPoints a r.playerId r.points
        s!"推し{pl.oshiId.text}向かい側(ペンライト): {r.points}ポイント") acc2

/-- From `calculateFansaPoints`: accumulate over the three placements and
read the map out in insertion order. -/
def calculateFansaPoints (oshiPlacements : List OshiPlacement)
    (boardState : HanamichiBoard) (allOtakuPieces : List OtakuPiece) :
    List FansaPointResult :=
  let finalAcc := oshiPlacements.foldl (fansaStep boardState allOtakuPieces) []
  finalAcc.map fun e =>
    { playerId := e.playerId, totalPoints := e.points, breakdown := e.breakdown }

/-! ## Game-context reducer (src/unnamed/part_005, the GameContext with
goods purchase): the dispatched cases the claims are about.  Each case is a
function `GameSession → ... → GameSession`; a silently rejected action
returns the session unchanged. -/

/-- Board update of `MOVE_PIECE`: every spot's occupant list is filtered of
the moved piece id (the source's `forEach` + `filter`). -/
def removePieceFromSpots (spots : List BoardSpot) (pieceId : String) : List BoardSpot :=
  spots.map fun spot =>
    { spot with otakuPieces := spot.otakuPieces.filter fun p => !(p.id == pieceId) }

/-- Board update of `MOVE_PIECE`: the updated piece is pushed onto the first
spot whose id matches the target (the spot the source's `find` aliased). -/
def pushOntoSpot : List BoardSpot → Nat → OtakuPiece → List BoardSpot
  | [], _, _ => []
  | spot :: rest, spotId, piece =>
    if spot.id == spotId then
      { spot with otakuPieces := spot.otakuPieces ++ [piece] } :: rest
    else
      spot :: pushOntoSpot rest spotId piece

/-- From the reducer's `MOVE_PIECE` case: rejects (state unchanged) when the
target spot is missing or holds 3 pieces, when the piece does not exist, or
when the piece holds no goods; otherwise removes the piece from every spot,
appends it to the target spot and updates the owner's canonical piece list. -/
def gameReducerMovePiece (s : GameSession) (pieceId : String) (spotId : Nat) :
    GameSession :=
  match s.gameState.hanamichiBoardState.spots.find? (fun sp => sp.id == spotId) with
  | none => s
  | some targetSpot =>
    if 3 ≤ targetSpot.otakuPieces.length then s
    else
      match (s.players.flatMap (fun pl => pl.otakuPieces)).find? (fun p => p.id == pieceId) with
      | none => s
      | some piece =>
        match piece.goods with
        | none => s
        | some _ =>
          let updatedPiece := { piece with boardSpotId := some spotId }
          let newSpots :=
            pushOntoSpot (removePieceFromSpots s.gameState.hanamichiBoardState.spots pieceId)
              spotId updatedPiece
          let updatedPlayers := s.players.map fun player =>
            { player with otakuPieces := player.otakuPieces.map fun p =>
                if p.id == pieceId then updatedPiece else p }
          { s with
            players := updatedPlayers,
            gameState := { s.gameState with hanamichiBoardState := { spots := newSpots } } }

/-- Object-map write `{ ...phaseActions, [id]: b }`: an existing key is
updated in place, a new key is appended. -/
def setAction (actions : List (String × Bool)) (id : String) (b : Bool) :
    List (String × Bool) :=
  if actions.any (fun kv => kv.1 == id) then
    actions.map fun kv => if kv.1 == id then (kv.1, b) else kv
  else
    actions ++ [(id, b)]

/-- From the reducer's `SELECT_REWARD_CARD` case: an unknown card id is
rejected; otherwise the player's selected card is set (overwriting any
previous selection), the player's phase action is marked complete and the
player leaves the waiting list. -/
def gameReducerSelectRewardCard (s : GameSession) (playerId cardId : String) :
    GameSession :=
  match s.gameState.rewardDistributionCards.find? (fun card => card.id == cardId) with
  | none => s
  | some selectedCard =>
    { s with
      players := s.players.map fun player =>
        if player.id == playerId then { player with selectedRewardCard := some selectedCard }
        else player,
      turnManager := { s.turnManager with
        phaseActions := setAction s.turnManager.phaseActions playerId true,
        waitingForPlayers := s.turnManager.waitingForPlayers.filter fun id => !(id == playerId) } }

/-- From the reducer's `ROLL_DICE_AND_PROCESS_LABOR` case, with the die roll
as an argument (the source draws it from `rollDice()`, always in 1..6).
Rejects while some player has no selected card; otherwise pays every player
and stores the fresh labor records in the current round's history entry,
creating that entry when absent and replacing its labor records when
present.  The inner `none` branch models the throw of `processLaborPhase`,
unreachable here because the guard checked every card and the die is in
range at every call site. -/
def gameReducerRollDiceAndProcessLabor (s : GameSession) (diceResult : Nat) :
    GameSession :=
  if !(s.players.all fun player => player.selectedRewardCard.isSome) then s
  else
    match processLaborPhase s.players diceResult with
    | none => s
    | some (updatedPlayers, laborResults) =>
      let updatedRoundHistory :=
        if (s.gameState.roundHistory.find? fun round =>
            round.roundNumber == s.currentRound).isSome then
          s.gameState.roundHistory.map fun round =>
            if round.roundNumber == s.currentRound then
              { round with laborResults := laborResults }
            else round
        else
          s.gameState.roundHistory ++
            [{ roundNumber := s.currentRound, laborResults := laborResults,
               oshikatsuDecisions := [], fansaResults := [] }]
      { s with
        players := updatedPlayers,
        gameState := { s.gameState with
          currentDiceResult := some diceResult,
          roundHistory := updatedRoundHistory } }

/-- Goods price list of the reducer's `PURCHASE_GOODS` case. -/
def goodsPrice : GoodsType → Int
  | GoodsType.uchiwa => 1
  | GoodsType.penlight => 1
  | GoodsType.sashiire => 2

/-- Eligibility test of `PURCHASE_GOODS`: a piece with no goods and no board
assignment. -/
def isAvailablePiece (piece : OtakuPiece) : Bool :=
  piece.goods.isNone && piece.boardSpotId.isNone

/-- From the reducer's `PURCHASE_GOODS` case: rejects when the buyer is
missing, short of money, or has no available piece; otherwise deducts the
price from the buyer and puts the goods on the buyer's first available
piece. -/
def gameReducerPurchaseGoods (s : GameSession) (playerId : String)
    (goodsType : GoodsType) : GameSession :=
  let price := goodsPrice goodsType
  match s.players.find? (fun p => p.id == playerId) with
  | none => s
  | some buyer =>
    if buyer.money < price then s
    else
      match buyer.otakuPieces.find? isAvailablePiece with
      | none => s
      | some availablePiece =>
        { s with
          players := s.players.map fun player =>
            if player.id == playerId then
              { player with
                money := player.money - price,
                otakuPieces := player.otakuPieces.map fun piece =>
                  if piece.id == availablePiece.id then
                    { piece with goods := some goodsType }
                  else piece }
            else player }

/-! ## dataPersistence.ts: serialization

The serializer renders `createdAt` with the JS runtime's
`Date.prototype.toISOString` and the deserializer decodes it with
`new Date(isoString)`; both runtime functions are modelled below over
milliseconds since the Unix epoch (the content of a JS `Date`), for
instants up to the end of year 9999 (the range of the fixed-width
`YYYY-MM-DDTHH:MM:SS.sssZ` format).  The surrounding
`JSON.stringify`/`JSON.parse` pair is the identity on the session's
document tree (all remaining fields are JSON-safe data), so the JSON text
layer is modelled as the document itself. -/

def isLeapYear (y : Nat) : Bool := (y % 4 == 0 && y % 100 != 0) || (y % 400 == 0)

def daysInMonth (y m : Nat) : Nat :=
  if m == 2 then (if isLeapYear y then 29 else 28)
  else if m == 4 || m == 6 || m == 9 || m == 11 then 30
  else 31

def daysInYear (y : Nat) : Nat := if isLeapYear y then 366 else 365

def daysSince1970 : Nat → Nat
  | 0 => 0
  | n + 1 => daysSince1970 n + daysInYear (1970 + n)

def daysUptoYear (y : Nat) : Nat := daysSince1970 (y - 1970)

def monthDaysGo (y : Nat) : Nat → Nat
  | 0 => 0
  | j + 1 => monthDaysGo y j + daysInMonth y (j + 1)

def daysUptoMonth (y m : Nat) : Nat := monthDaysGo y (m - 1)

theorem monthDaysGo_twelve (y : Nat) : monthDaysGo y 12 = daysInYear y := by
  cases h : isLeapYear y <;>
    simp [monthDaysGo, daysInMonth, daysInYear, h]

theorem daysInYear_ge (y : Nat) : 365 ≤ daysInYear y := by
  unfold daysInYear; split <;> omega

theorem daysInMonth_le (y m : Nat) : daysInMonth y m ≤ 31 := by
  unfold daysInMonth
  split
  · split <;> omega
  · split <;> omega

theorem daysInMonth_pos (y m : Nat) : 1 ≤ daysInMonth y m := by
  unfold daysInMonth
  split
  · split <;> omega
  · split <;> omega

def leaps (y : Nat) : Nat := y / 4 - y / 100 + y / 400

theorem isLeapYear_iff (y : Nat) :
    isLeapYear y = true ↔ ((y % 4 = 0 ∧ y % 100 ≠ 0) ∨ y % 400 = 0) := by
  simp [isLeapYear, Bool.or_eq_true, Bool.and_eq_true, beq_iff_eq, bne_iff_ne]

theorem daysInYear_leaps (n : Nat) :
    daysInYear (1970 + n) = 365 + (leaps (1970 + n) - leaps (1969 + n)) := by
  have hiff := isLeapYear_iff (1970 + n)
  unfold daysInYear leaps
  simp only [hiff]
  split_ifs with hl
  · rcases hl with ⟨h4, h100⟩ | h400 <;> omega
  · by_cases h4 : (1970 + n) % 4 = 0
    · have h100 : (1970 + n) % 100 = 0 := by
        by_contra hc
        exact hl (Or.inl ⟨h4, hc⟩)
      have h400 : ¬(1970 + n) % 400 = 0 := fun hc => hl (Or.inr hc)
      omega
    · have h400 : ¬(1970 + n) % 400 = 0 := fun hc => hl (Or.inr hc)
      omega

theorem daysSince1970_closed (n : Nat) :
    daysSince1970 n = 365 * n + (leaps (1969 + n) - leaps 1969) := by
  induction n with
  | zero => simp [daysSince1970]
  | succ n ih =>
    have hstep := daysInYear_leaps n
    have hmono : leaps 1969 ≤ leaps (1969 + n) := by unfold leaps; omega
    have hmono2 : leaps (1969 + n) ≤ leaps (1970 + n) := by unfold leaps; omega
    have hd : daysSince1970 (n + 1) = daysSince1970 n + daysInYear (1970 + n) := rfl
    rw [hd, ih, hstep]
    have h1969 : 1969 + (n + 1) = 1970 + n := by omega
    rw [h1969]
    omega

theorem big_const : daysUptoYear 10000 = 2932897 := by
  have hb : daysUptoYear 10000 = daysSince1970 8030 := rfl
  rw [hb, daysSince1970_closed 8030]
  norm_num [leaps]

def yearGo : Nat → Nat → Nat → Nat × Nat
  | 0, y, n => (y, n)
  | fuel + 1, y, n =>
    if n < daysInYear y then (y, n)
    else yearGo fuel (y + 1) (n - daysInYear y)

def monthGo (y : Nat) : Nat → Nat → Nat → Nat × Nat
  | 0, m, k => (m, k)
  | fuel + 1, m, k =>
    if k < daysInMonth y m then (m, k)
    else monthGo y fuel (m + 1) (k - daysInMonth y m)

def civilFromDays (n : Nat) : Nat × Nat × Nat :=
  let yk := yearGo (n / 365 + 1) 1970 n
  let md := monthGo yk.1 11 1 yk.2
  (yk.1, md.1, md.2 + 1)

def daysFromCivil (y m d : Nat) : Nat :=
  daysUptoYear y + daysUptoMonth y m + (d - 1)

theorem daysUptoYear_succ (y : Nat) (hy : 1970 ≤ y) :
    daysUptoYear (y + 1) = daysUptoYear y + daysInYear y := by
  have h1 : y + 1 - 1970 = (y - 1970) + 1 := by omega
  have h2 : 1970 + (y - 1970) = y := by omega
  unfold daysUptoYear
  rw [h1]
  show daysSince1970 (y - 1970) + daysInYear (1970 + (y - 1970)) = _
  rw [h2]

theorem yearGo_spec : ∀ (fuel y n : Nat), 1970 ≤ y → n ≤ 365 * fuel + 364 →
    daysUptoYear (yearGo fuel y n).1 + (yearGo fuel y n).2 = daysUptoYear y + n ∧
    (yearGo fuel y n).2 < daysInYear (yearGo fuel y n).1 ∧
    y ≤ (yearGo fuel y n).1 := by
  intro fuel
  induction fuel with
  | zero =>
    intro y n hy hn
    have := daysInYear_ge y
    simp only [yearGo]
    refine ⟨by trivial, by omega, by omega⟩
  | succ fuel ih =>
    intro y n hy hn
    by_cases h : n < daysInYear y
    · simp only [yearGo, if_pos h]
      exact ⟨by trivial, h, by omega⟩
    · have hd := daysInYear_ge y
      have hrec := ih (y + 1) (n - daysInYear y) (by omega) (by omega)
      simp only [yearGo, if_neg h]
      rw [daysUptoYear_succ y hy] at hrec
      exact ⟨by omega, hrec.2.1, by omega⟩

theorem daysUptoMonth_succ (y m : Nat) (hm : 1 ≤ m) :
    daysUptoMonth y (m + 1) = daysUptoMonth y m + daysInMonth y m := by
  rcases Nat.exists_eq_add_of_le hm with ⟨j, hj⟩
  subst hj
  show monthDaysGo y (1 + j + 1 - 1) = monthDaysGo y (1 + j - 1) + daysInMonth y (1 + j)
  have h1 : 1 + j + 1 - 1 = j + 1 := by omega
  have h2 : 1 + j - 1 = j := by omega
  have h3 : 1 + j = j + 1 := by omega
  rw [h1, h2, h3]
  rfl

theorem monthGo_spec (y : Nat) : ∀ (fuel m k : Nat), 1 ≤ m →
    daysUptoMonth y m + k < daysUptoMonth y (m + fuel + 1) →
    daysUptoMonth y (monthGo y fuel m k).1 + (monthGo y fuel m k).2 =
      daysUptoMonth y m + k ∧
    (monthGo y fuel m k).2 < daysInMonth y (monthGo y fuel m k).1 ∧
    m ≤ (monthGo y fuel m k).1 ∧
    (monthGo y fuel m k).1 ≤ m + fuel := by
  intro fuel
  induction fuel with
  | zero =>
    intro m k hm hk
    rw [daysUptoMonth_succ y m hm] at hk
    simp only [monthGo]
    exact ⟨by trivial, by omega, by omega, by omega⟩
  | succ fuel ih =>
    intro m k hm hk
    by_cases h : k < daysInMonth y m
    · simp only [monthGo, if_pos h]
      exact ⟨by trivial, h, by omega, by omega⟩
    · have hrec := ih (m + 1) (k - daysInMonth y m) (by omega) ?_
      · simp only [monthGo, if_neg h]
        rw [daysUptoMonth_succ y m hm] at hrec
        exact ⟨by omega, hrec.2.1, by omega, by omega⟩
      · rw [daysUptoMonth_succ y m hm]
        have : m + 1 + fuel + 1 = m + (fuel + 1) + 1 := by omega
        rw [this]
        omega

theorem daysSince1970_mono {a b : Nat} (h : a ≤ b) :
    daysSince1970 a ≤ daysSince1970 b := by
  induction b with
  | zero =>
    have : a = 0 := by omega
    subst this
    exact le_refl _
  | succ b ih =>
    by_cases hb : a = b + 1
    · subst hb; exact le_refl _
    · have : a ≤ b := by omega
      calc daysSince1970 a ≤ daysSince1970 b := ih this
        _ ≤ daysSince1970 b + daysInYear (1970 + b) := by omega
        _ = daysSince1970 (b + 1) := rfl

theorem daysUptoMonth_one (y : Nat) : daysUptoMonth y 1 = 0 := rfl

theorem daysUptoMonth_thirteen (y : Nat) : daysUptoMonth y 13 = daysInYear y := by
  show monthDaysGo y 12 = daysInYear y
  exact monthDaysGo_twelve y

/-- Full inversion + bounds for the civil-date conversion. -/
theorem civilFromDays_spec (n : Nat) (hn : n ≤ 2932896) :
    daysFromCivil (civilFromDays n).1 (civilFromDays n).2.1 (civilFromDays n).2.2 = n ∧
    1970 ≤ (civilFromDays n).1 ∧ (civilFromDays n).1 ≤ 9999 ∧
    1 ≤ (civilFromDays n).2.1 ∧ (civilFromDays n).2.1 ≤ 12 ∧
    1 ≤ (civilFromDays n).2.2 ∧ (civilFromDays n).2.2 ≤ 31 := by
  have hfuel : n ≤ 365 * (n / 365 + 1) + 364 := by omega
  have hy := yearGo_spec (n / 365 + 1) 1970 n (le_refl _) hfuel
  set yk := yearGo (n / 365 + 1) 1970 n with hyk
  have hupto1970 : daysUptoYear 1970 = 0 := rfl
  rw [hupto1970] at hy
  have hmhyp : daysUptoMonth yk.1 1 + yk.2 < daysUptoMonth yk.1 (1 + 11 + 1) := by
    have h13 : (1 : Nat) + 11 + 1 = 13 := by norm_num
    rw [h13, daysUptoMonth_one, daysUptoMonth_thirteen]
    omega
  have hm := monthGo_spec yk.1 11 1 yk.2 (le_refl 1) hmhyp
  set md := monthGo yk.1 11 1 yk.2 with hmd
  rw [daysUptoMonth_one] at hm
  have hciv : civilFromDays n = (yk.1, md.1, md.2 + 1) := rfl
  rw [hciv]
  simp only []
  have hdim := daysInMonth_le yk.1 md.1
  have hy9999 : yk.1 ≤ 9999 := by
    by_contra hgt
    have h10000 : 10000 ≤ yk.1 := by omega
    have : daysUptoYear 10000 ≤ daysUptoYear yk.1 := by
      unfold daysUptoYear
      exact daysSince1970_mono (by omega)
    rw [big_const] at this
    omega
  refine ⟨?_, by omega, hy9999, by omega, by omega, by omega, by omega⟩
  unfold daysFromCivil
  have : md.2 + 1 - 1 = md.2 := by omega
  rw [this]
  omega

def digitChar (n : Nat) : Char := Char.ofNat (48 + n)

def pad2 (n : Nat) : List Char := [digitChar (n / 10), digitChar (n % 10)]

def pad3 (n : Nat) : List Char :=
  [digitChar (n / 100), digitChar (n / 10 % 10), digitChar (n % 10)]

def pad4 (n : Nat) : List Char :=
  [digitChar (n / 1000), digitChar (n / 100 % 10), digitChar (n / 10 % 10), digitChar (n % 10)]

def toISOString (ms : Nat) : String :=
  let days := ms / 86400000
  let rem := ms % 86400000
  let ymd := civilFromDays days
  String.mk (pad4 ymd.1 ++ '-' :: pad2 ymd.2.1 ++ '-' :: pad2 ymd.2.2 ++
    'T' :: pad2 (rem / 3600000) ++ ':' :: pad2 (rem % 3600000 / 60000) ++
    ':' :: pad2 (rem % 60000 / 1000) ++ '.' :: pad3 (rem % 1000) ++ ['Z'])

def charDigit (c : Char) : Option Nat :=
  if 48 ≤ c.toNat ∧ c.toNat ≤ 57 then some (c.toNat - 48) else none

def twoDigits (a b : Char) : Option Nat := do
  let d1 ← charDigit a
  let d2 ← charDigit b
  pure (d1 * 10 + d2)

def threeDigits (a b c : Char) : Option Nat := do
  let d1 ← charDigit a
  let d2 ← charDigit b
  let d3 ← charDigit c
  pure (d1 * 100 + d2 * 10 + d3)

def fourDigits (a b c d : Char) : Option Nat := do
  let d1 ← charDigit a
  let d2 ← charDigit b
  let d3 ← charDigit c
  let d4 ← charDigit d
  pure (d1 * 1000 + d2 * 100 + d3 * 10 + d4)

def digitsToMs (y1 y2 y3 y4 o1 o2 a1 a2 h1 h2 i1 i2 e1 e2 x1 x2 x3 : Char) :
    Option Nat := do
  let year ← fourDigits y1 y2 y3 y4
  let month ← twoDigits o1 o2
  let day ← twoDigits a1 a2
  let hh ← twoDigits h1 h2
  let mi ← twoDigits i1 i2
  let ss ← twoDigits e1 e2
  let mss ← threeDigits x1 x2 x3
  pure (daysFromCivil year month day * 86400000 +
    hh * 3600000 + mi * 60000 + ss * 1000 + mss)

def parseISOList (l : List Char) : Option Nat :=
  match l with
  | y1 :: y2 :: y3 :: y4 :: c1 :: o1 :: o2 :: c2 :: a1 :: a2 :: c3 ::
    h1 :: h2 :: c4 :: i1 :: i2 :: c5 :: e1 :: e2 :: c6 :: x1 :: x2 :: x3 :: c7 :: [] =>
    if c1 == '-' && c2 == '-' && c3 == 'T' && c4 == ':' && c5 == ':' &&
       c6 == '.' && c7 == 'Z' then
      digitsToMs y1 y2 y3 y4 o1 o2 a1 a2 h1 h2 i1 i2 e1 e2 x1 x2 x3
    else none
  | _ => none

def parseISOString (s : String) : Option Nat := parseISOList s.data

theorem charDigit_digitChar (n : Nat) (h : n ≤ 9) :
    charDigit (digitChar n) = some n := by
  interval_cases n <;> decide

theorem twoDigits_pad (n : Nat) (h : n ≤ 99) :
    twoDigits (digitChar (n / 10)) (digitChar (n % 10)) = some n := by
  unfold twoDigits
  rw [charDigit_digitChar (n / 10) (by omega), charDigit_digitChar (n % 10) (by omega)]
  simp only [Option.bind_eq_bind, Option.some_bind, Option.pure_def]
  congr 1
  omega

theorem threeDigits_pad (n : Nat) (h : n ≤ 999) :
    threeDigits (digitChar (n / 100)) (digitChar (n / 10 % 10)) (digitChar (n % 10)) =
      some n := by
  unfold threeDigits
  rw [charDigit_digitChar (n / 100) (by omega), charDigit_digitChar (n / 10 % 10) (by omega),
    charDigit_digitChar (n % 10) (by omega)]
  simp only [Option.bind_eq_bind, Option.some_bind, Option.pure_def]
  congr 1
  omega

theorem fourDigits_pad (n : Nat) (h : n ≤ 9999) :
    fourDigits (digitChar (n / 1000)) (digitChar (n / 100 % 10)) (digitChar (n / 10 % 10))
      (digitChar (n % 10)) = some n := by
  unfold fourDigits
  rw [charDigit_digitChar (n / 1000) (by omega), charDigit_digitChar (n / 100 % 10) (by omega),
    charDigit_digitChar (n / 10 % 10) (by omega), charDigit_digitChar (n % 10) (by omega)]
  simp only [Option.bind_eq_bind, Option.some_bind, Option.pure_def]
  congr 1
  omega

theorem parseISOList_pads (y mo da hh mi ss mss : Nat)
    (hy : y ≤ 9999) (hmo : mo ≤ 99) (hda : da ≤ 99) (hhh : hh ≤ 99) (hmi : mi ≤ 99)
    (hss : ss ≤ 99) (hmss : mss ≤ 999) :
    parseISOList (pad4 y ++ '-' :: pad2 mo ++ '-' :: pad2 da ++ 'T' :: pad2 hh ++
      ':' :: pad2 mi ++ ':' :: pad2 ss ++ '.' :: pad3 mss ++ ['Z']) =
      some (daysFromCivil y mo da * 86400000 +
        hh * 3600000 + mi * 60000 + ss * 1000 + mss) := by
  simp only [pad4, pad2, pad3, List.cons_append, List.nil_append]
  rw [parseISOList]
  simp only [beq_self_eq_true, Bool.and_self, if_true]
  unfold digitsToMs
  rw [fourDigits_pad y hy, twoDigits_pad mo hmo, twoDigits_pad da hda,
    twoDigits_pad hh hhh, twoDigits_pad mi hmi, twoDigits_pad ss hss,
    threeDigits_pad mss hmss]
  simp only [Option.bind_eq_bind, Option.some_bind, Option.pure_def]

theorem parse_toISOString (ms : Nat) (h : ms < 253402300800000) :
    parseISOString (toISOString ms) = some ms := by
  have hdays : ms / 86400000 ≤ 2932896 := by omega
  have hspec := civilFromDays_spec (ms / 86400000) hdays
  have hrem : ms % 86400000 < 86400000 := Nat.mod_lt _ (by norm_num)
  rcases hciv : civilFromDays (ms / 86400000) with ⟨yy, mm, dd⟩
  rw [hciv] at hspec
  dsimp only at hspec
  obtain ⟨hinv, hy1, hy2, hm1, hm2, hd1, hd2⟩ := hspec
  show parseISOList (pad4 (civilFromDays (ms / 86400000)).1 ++
    '-' :: pad2 (civilFromDays (ms / 86400000)).2.1 ++
    '-' :: pad2 (civilFromDays (ms / 86400000)).2.2 ++
    'T' :: pad2 (ms % 86400000 / 3600000) ++
    ':' :: pad2 (ms % 86400000 % 3600000 / 60000) ++
    ':' :: pad2 (ms % 86400000 % 60000 / 1000) ++
    '.' :: pad3 (ms % 86400000 % 1000) ++ ['Z']) = some ms
  rw [hciv]
  dsimp only
  rw [parseISOList_pads yy mm dd _ _ _ _ hy2 (by omega) (by omega) (by omega) (by omega)
    (by omega) (by omega)]
  rw [hinv]
  exact congrArg some (by omega)

/-- Serialized form of a session: the parsed JSON document produced by
`serializeGameState`, whose only non-plain field is the ISO `createdAt`. -/
structure SerializedGameSession where
  id : String
  players : List Player
  currentRound : Nat
  currentPhase : GamePhase
  activePlayerIndex : Nat
  gameState : GameState
  turnManager : TurnManager
  createdAt : String
deriving DecidableEq, Repr

/-- From `serializeGameState`: the spread copies every field and converts
`createdAt` to its ISO string (with the model `Date` a plain `Nat`, the
source's invalid-date guard never fires). -/
def serializeGameState (gameSession : GameSession) : SerializedGameSession :=
  { id := gameSession.id
    players := gameSession.players
    currentRound := gameSession.currentRound
    currentPhase := gameSession.currentPhase
    activePlayerIndex := gameSession.activePlayerIndex
    gameState := gameSession.gameState
    turnManager := gameSession.turnManager
    createdAt := toISOString gameSession.createdAt }

/-- From `deserializeGameState`: the truthiness checks on the required
fields reject an empty `id` or `createdAt` (the typed fields `players` and
`gameState` are always present, and a JS array or object is always
truthy); the remaining fields are spread back and `createdAt` is decoded.
An undecodable `createdAt` is modelled as a failure (the source's
`new Date` would produce an invalid date value there, which no later
serialization accepts). -/
def deserializeGameState (d : SerializedGameSession) : Option GameSession :=
  if d.id == "" then none
  else if d.createdAt == "" then none
  else
    match parseISOString d.createdAt with
    | none => none
    | some ms =>
      some { id := d.id
             players := d.players
             currentRound := d.currentRound
             currentPhase := d.currentPhase
             activePlayerIndex := d.activePlayerIndex
             gameState := d.gameState
             turnManager := d.turnManager
             createdAt := ms }

/-! ## Helper lemmas: basic split -/

theorem basicPointsGo_length (pp rem : Nat) :
    ∀ (l : List OtakuPiece) (i : Nat), (basicPointsGo pp rem i l).length = l.length := by
  intro l
  induction l with
  | nil => intro i; rfl
  | cons piece rest ih => intro i; simp [basicPointsGo, ih]

theorem basicPointsGo_get? (pp rem : Nat) :
    ∀ (l : List OtakuPiece) (i j : Nat),
      (basicPointsGo pp rem i l).get? j = (l.get? j).map fun piece =>
        { playerId := piece.playerId,
          points := pp + if i + j < rem then 1 else 0 } := by
  intro l
  induction l with
  | nil => intro i j; simp [basicPointsGo]
  | cons piece rest ih =>
    intro i j
    cases j with
    | zero => simp [basicPointsGo]
    | succ j =>
      simp only [basicPointsGo, List.get?_cons_succ]
      rw [ih (i + 1) j]
      have : i + 1 + j = i + (j + 1) := by omega
      rw [this]

theorem basicPointsGo_sum (pp rem : Nat) :
    ∀ (l : List OtakuPiece) (i : Nat),
      ((basicPointsGo pp rem i l).map (fun r => r.points)).sum =
        l.length * pp + (min rem (i + l.length) - min rem i) := by
  intro l
  induction l with
  | nil => intro i; simp [basicPointsGo]
  | cons piece rest ih =>
    intro i
    simp only [basicPointsGo, List.map_cons, List.sum_cons, List.length_cons]
    rw [ih (i + 1), Nat.succ_mul]
    rcases Nat.lt_or_ge i rem with h | h
    · rw [if_pos h]
      omega
    · rw [if_neg (by omega)]
      omega

/-- Statement of claim C2: the basic split gives the first `6 % k`
occupants `6 / k + 1` points, the rest `6 / k`, preserves occupant order,
and sums to exactly 6. -/
def basicSplitSpec (spotId : Nat) (pieces : List OtakuPiece) : Prop :=
  (calculateBasicPoints spotId pieces).length = pieces.length ∧
  (∀ i piece, pieces.get? i = some piece →
    (calculateBasicPoints spotId pieces).get? i = some
      { playerId := piece.playerId,
        points := if i < 6 % pieces.length then 6 / pieces.length + 1
                  else 6 / pieces.length }) ∧
  ((calculateBasicPoints spotId pieces).map (fun r => r.points)).sum = 6

/-- Claim C2: for a non-empty occupant list of length `k` the basic split
assigns the first `6 % k` occupants (in list order) `6 / k + 1` points and
the rest `6 / k`, the points sum to exactly 6, and an empty occupant list
yields no distribution. -/
theorem basic_split_exact (spotId : Nat) (pieces : List OtakuPiece)
    (h : pieces ≠ []) :
    calculateBasicPoints spotId [] = [] ∧ basicSplitSpec spotId pieces := by
  have hk : 0 < pieces.length := List.length_pos.mpr h
  have hne : pieces.isEmpty = false := by
    cases pieces with
    | nil => exact absurd rfl h
    | cons a l => rfl
  constructor
  · rfl
  · refine ⟨?_, ?_, ?_⟩
    · unfold calculateBasicPoints
      rw [hne]
      simp only [Bool.false_eq_true, if_false]
      exact basicPointsGo_length _ _ pieces 0
    · intro i piece hp
      unfold calculateBasicPoints
      rw [hne]
      simp only [Bool.false_eq_true, if_false]
      rw [basicPointsGo_get? _ _ pieces 0 i, hp]
      simp only [Option.map_some']
      have hz : 0 + i = i := by omega
      rw [hz]
      by_cases hlt : i < 6 % pieces.length
      · rw [if_pos hlt, if_pos hlt]
      · rw [if_neg hlt, Nat.add_zero, if_neg hlt]
    · unfold calculateBasicPoints
      rw [hne]
      simp only [Bool.false_eq_true, if_false]
      rw [basicPointsGo_sum _ _ pieces 0]
      have hdm := Nat.div_add_mod 6 pieces.length
      have hmlt : 6 % pieces.length < pieces.length := Nat.mod_lt 6 hk
      have h1 : min (6 % pieces.length) (0 + pieces.length) = 6 % pieces.length := by
        omega
      have h2 : min (6 % pieces.length) 0 = 0 := by omega
      rw [h1, h2]
      omega

/-- Fixture pieces used by witnesses and counterexamples. -/
def piece1 : OtakuPiece :=
  { id := "p1-1", playerId := "P1", boardSpotId := some 0,
    goods := some GoodsType.uchiwa, isKagebunshin := false }

/-- Second fixture piece, owned by a second player. -/
def piece2 : OtakuPiece :=
  { id := "p2-1", playerId := "P2", boardSpotId := some 0,
    goods := some GoodsType.penlight, isKagebunshin := false }

/-- Third fixture piece, owned by a third player. -/
def piece3 : OtakuPiece :=
  { id := "p3-1", playerId := "P3", boardSpotId := some 0,
    goods := some GoodsType.penlight, isKagebunshin := false }

theorem basic_split_exact_witness :
    calculateBasicPoints 0 [] = [] ∧ basicSplitSpec 0 [piece1, piece2, piece3] :=
  basic_split_exact 0 [piece1, piece2, piece3] (by decide)

/-! ## Fixtures and claim C8 -/

/-- From `createRewardDistributionCards`: the six fixed cards A-F. -/
def createRewardDistributionCards : List RewardDistributionCard :=
  [ { id := "card-A", name := "A", rewards := ⟨3, 2, 1, 0, 0, 0⟩ },
    { id := "card-B", name := "B", rewards := ⟨2, 3, 2, 1, 0, 0⟩ },
    { id := "card-C", name := "C", rewards := ⟨1, 2, 3, 2, 1, 0⟩ },
    { id := "card-D", name := "D", rewards := ⟨0, 1, 2, 3, 2, 1⟩ },
    { id := "card-E", name := "E", rewards := ⟨0, 0, 1, 2, 3, 2⟩ },
    { id := "card-F", name := "F", rewards := ⟨0, 0, 0, 1, 2, 3⟩ } ]

/-- From `createInitialBoard`: 8 empty spots in a 2x4 grid. -/
def createInitialBoard : HanamichiBoard :=
  { spots := (List.range 8).map fun i =>
      { id := i, position := (i / 4, i % 4), otakuPieces := [], oshiPiece := none } }

/-- Fixture player for witnesses. -/
def fixturePlayer : Player :=
  { id := "p1", name := "Player 1", color := PlayerColor.red, money := 5, points := 0,
    otakuPieces :=
      [ { id := "p1-a", playerId := "p1", boardSpotId := none,
          goods := none, isKagebunshin := false },
        { id := "p1-b", playerId := "p1", boardSpotId := none,
          goods := some GoodsType.uchiwa, isKagebunshin := false } ],
    selectedRewardCard := none, oshikatsuDecision := none }

/-- Fixture session for witnesses: one player in the labor phase. -/
def fixtureSession : GameSession :=
  { id := "game-1", players := [fixturePlayer], currentRound := 1,
    currentPhase := GamePhase.labor, activePlayerIndex := 0,
    gameState :=
      { hanamichiBoardState := createInitialBoard,
        oshiPieces := [⟨OshiId.A, none⟩, ⟨OshiId.B, none⟩, ⟨OshiId.C, none⟩],
        fanserviceSpotCards := [], revealedCards := [],
        rewardDistributionCards := createRewardDistributionCards,
        currentDiceResult := none, roundHistory := [] },
    turnManager := { currentPlayer := 0, waitingForPlayers := ["p1"],
                     phaseActions := [("p1", false)] },
    createdAt := 1700000000000 }

/-- Statement of claim C8: phase-transition legality per phase class. -/
def phaseTransitionSpec (s : GameSession) : Prop :=
  (s.currentPhase = GamePhase.labor ∨ s.currentPhase = GamePhase.oshikatsuDecision ∨
      s.currentPhase = GamePhase.oshikatsuGoods ∨
      s.currentPhase = GamePhase.oshikatsuPlacement →
    (canTransitionToNextPhase s = true ↔
      ∀ p ∈ s.players, lookupAction s.turnManager.phaseActions p.id = some true)) ∧
  (s.currentPhase = GamePhase.fansaTime →
    ∀ hidx : s.activePlayerIndex < s.players.length,
      (canTransitionToNextPhase s = true ↔
        lookupAction s.turnManager.phaseActions
          (s.players.get ⟨s.activePlayerIndex, hidx⟩).id = some true)) ∧
  (s.currentPhase = GamePhase.setup ∨ s.currentPhase = GamePhase.roundEnd →
    canTransitionToNextPhase s = true)

/-- Claim C8: the transition predicate requires every player's flag in the
four simultaneous phases, only the active player's flag in `fansa-time`,
and holds unconditionally in `setup` and `round-end`. -/
theorem phase_transition_classification (s : GameSession) : phaseTransitionSpec s := by
  unfold phaseTransitionSpec canTransitionToNextPhase
  refine ⟨?_, ?_, ?_⟩
  · intro hph
    have hsim : isSimultaneousPhase s.currentPhase = true := by
      rcases hph with h | h | h | h <;> rw [h] <;> decide
    rw [if_pos hsim]
    simp only [List.all_eq_true, beq_iff_eq]
  · intro hph hidx
    have hsim : ¬isSimultaneousPhase s.currentPhase = true := by
      rw [hph]; decide
    have htb : isTurnBasedPhase s.currentPhase = true := by
      rw [hph]; decide
    rw [if_neg hsim, if_pos htb, List.get?_eq_get hidx]
    simp only [beq_iff_eq]
  · intro hph
    have hsim : ¬isSimultaneousPhase s.currentPhase = true := by
      rcases hph with h | h <;> rw [h] <;> decide
    have htb : ¬isTurnBasedPhase s.currentPhase = true := by
      rcases hph with h | h <;> rw [h] <;> decide
    rw [if_neg hsim, if_neg htb]

theorem phase_transition_classification_witness : phaseTransitionSpec fixtureSession :=
  phase_transition_classification fixtureSession

/-! ## Claim C7: the fanservice deck -/

/-- Statement of claim C7: the deck is exactly the 56 ascending 3-subsets
of the 8 spot ids, pairwise distinct, and any 3 cards drawn for a reveal
are pairwise distinct by spot-triple. -/
def fanserviceDeckSpec : Prop :=
  generateAllFanserviceSpotCombinations.length = 56 ∧
  (∀ t ∈ generateAllFanserviceSpotCombinations,
    t.1 < t.2.1 ∧ t.2.1 < t.2.2 ∧ t.2.2 < 8) ∧
  generateAllFanserviceSpotCombinations.Nodup ∧
  (∀ a b c : Fin 8, (a : Nat) < b → (b : Nat) < c →
    ((a : Nat), (b : Nat), (c : Nat)) ∈ generateAllFanserviceSpotCombinations) ∧
  createAllFanserviceSpotCards.length = 56 ∧
  createAllFanserviceSpotCards.map (fun card => card.spots) =
    generateAllFanserviceSpotCombinations ∧
  (∀ shuffledCards props prepared,
    shuffledCards.Perm createAllFanserviceSpotCards →
    prepareOshikatsuPhaseCards shuffledCards props = some prepared →
    prepared.length = 3 ∧ (prepared.map fun c => c.spots).Nodup)

/-- Claim C7: the canonical deck enumerates the 56 unordered 3-subsets of
the 8 spot ids exactly once, sorted ascending, and the 3 cards prepared
for a round's reveal are pairwise distinct by spot-triple. -/
theorem fanservice_deck_properties : fanserviceDeckSpec := by
  have hmapeq : createAllFanserviceSpotCards.map (fun card => card.spots) =
      generateAllFanserviceSpotCombinations := by rfl
  have hnodup : generateAllFanserviceSpotCombinations.Nodup := by decide
  refine ⟨by decide, by decide, hnodup, by decide, by decide, hmapeq, ?_⟩
  intro shuffledCards props prepared hperm hprep
  have hdecklen : createAllFanserviceSpotCards.length = 56 := by decide
  have hlen : shuffledCards.length = 56 := hperm.length_eq.trans hdecklen
  unfold prepareOshikatsuPhaseCards selectRandomFanserviceSpotCards at hprep
  rw [if_neg (by omega)] at hprep
  simp only [Option.some.injEq] at hprep
  subst hprep
  have hdeckspots : (createAllFanserviceSpotCards.map fun c => c.spots).Nodup := by
    rw [hmapeq]; exact hnodup
  have hshspots : (shuffledCards.map fun c => c.spots).Nodup :=
    ((hperm.map _).nodup_iff).mpr hdeckspots
  constructor
  · rw [List.length_map, List.length_take, hlen]
    omega
  · have hcollapse : ((shuffledCards.take 3).map fun c =>
        applyRandomCardProperties c (props c).1 (props c).2).map (fun c => c.spots) =
        (shuffledCards.map fun c => c.spots).take 3 := by
      rw [List.map_map, ← List.map_take]
      rfl
    rw [hcollapse]
    exact hshspots.sublist (List.take_sublist 3 _)

theorem fanservice_deck_witness :
    ((createAllFanserviceSpotCards.take 3).map fun c =>
      applyRandomCardProperties c Orientation.front Rotation.rot0).length = 3 ∧
    (((createAllFanserviceSpotCards.take 3).map fun c =>
      applyRandomCardProperties c Orientation.front Rotation.rot0).map
        fun c => c.spots).Nodup :=
  fanservice_deck_properties.2.2.2.2.2.2 createAllFanserviceSpotCards
    (fun _ => (Orientation.front, Rotation.rot0)) _ (List.Perm.refl _) rfl

/-! ## Claim C1: gift (sashiire) doubling -/

/-- Fixture piece at the oshi spot carrying uchiwa goods. -/
def cxFront : OtakuPiece :=
  { id := "p1-1", playerId := "P1", boardSpotId := some 0,
    goods := some GoodsType.uchiwa, isKagebunshin := false }

/-- Fixture piece of the same player carrying the gift (sashiire) goods on
a different spot. -/
def cxGift : OtakuPiece :=
  { id := "p1-2", playerId := "P1", boardSpotId := some 3,
    goods := some GoodsType.sashiire, isKagebunshin := false }

/-- Fixture board: spot 0 holds the uchiwa piece, spot 3 the gift piece. -/
def cxBoard : HanamichiBoard :=
  { spots :=
      [ { id := 0, position := (0, 0), otakuPieces := [cxFront], oshiPiece := none },
        { id := 1, position := (0, 1), otakuPieces := [], oshiPiece := none },
        { id := 2, position := (0, 2), otakuPieces := [], oshiPiece := none },
        { id := 3, position := (0, 3), otakuPieces := [cxGift], oshiPiece := none },
        { id := 4, position := (1, 0), otakuPieces := [], oshiPiece := none },
        { id := 5, position := (1, 1), otakuPieces := [], oshiPiece := none },
        { id := 6, position := (1, 2), otakuPieces := [], oshiPiece := none },
        { id := 7, position := (1, 3), otakuPieces := [], oshiPiece := none } ] }

/-- Counterexample to claim C1 as stated: player P1 receives the whole
basic split of 6 at the oshi's spot 0 and owns a gift (sashiire) piece on
spot 3, i.e. elsewhere on the board, yet the computed fan-service total
for P1 is the undoubled 6, not 12: only gift pieces at the oshi's own
spot trigger the doubling. -/
theorem sashiire_anywhere_counterexample :
    calculateBasicPoints 0 [cxFront] =
      [{ playerId := "P1", points := 6 }] ∧
    ([cxFront, cxGift].any fun p =>
      p.playerId == "P1" && p.goods == some GoodsType.sashiire) = true ∧
    calculateFansaPoints [{ oshiId := OshiId.A, spotId := 0 }] cxBoard
        [cxFront, cxGift] =
      [{ playerId := "P1", totalPoints := 6, breakdown := ["推しA目の前: 6ポイント"] }] ∧
    (6 : Nat) ≠ 2 * 6 := by
  refine ⟨by decide, by decide, by decide, by decide⟩

theorem any_filter_eq (l : List OtakuPiece) (p q : OtakuPiece → Bool) :
    (l.filter p).any q = l.any fun a => p a && q a := by
  induction l with
  | nil => rfl
  | cons a t ih => by_cases h : p a <;> simp [List.filter_cons, h, ih]

/-- Statement of the amended claim C1: a basic-split recipient's share for
a spot is doubled exactly when that player owns a gift (sashiire) piece
among the occupant pieces at that same spot. -/
def sashiireAtSpotSpec (spotId : Nat) (piecesAtSpot : List OtakuPiece) : Prop :=
  (applySashiireBonus spotId piecesAtSpot
    (calculateBasicPoints spotId piecesAtSpot)).length =
      (calculateBasicPoints spotId piecesAtSpot).length ∧
  ∀ i r, (calculateBasicPoints spotId piecesAtSpot).get? i = some r →
    (applySashiireBonus spotId piecesAtSpot
      (calculateBasicPoints spotId piecesAtSpot)).get? i = some
      { playerId := r.playerId,
        points := if piecesAtSpot.any fun p =>
            p.goods == some GoodsType.sashiire && p.playerId == r.playerId
          then r.points * 2 else r.points }

/-- Amended claim C1: in fan-service scoring the basic-split share of a
recipient at an oshi's spot is doubled if and only if the recipient owns a
gift (sashiire) piece among that spot's occupants; recipients without one
keep the undoubled share. -/
theorem sashiire_doubles_at_spot (spotId : Nat) (piecesAtSpot : List OtakuPiece) :
    sashiireAtSpotSpec spotId piecesAtSpot := by
  unfold sashiireAtSpotSpec applySashiireBonus
  constructor
  · exact List.length_map _ _
  · intro i r hr
    rw [List.get?_map, hr, Option.map_some']
    rw [any_filter_eq]

theorem sashiire_doubles_at_spot_witness : sashiireAtSpotSpec 0 [cxFront, cxGift] :=
  sashiire_doubles_at_spot 0 [cxFront, cxGift]

/-! ## Claims C3 and C4: piece movement -/

/-- Occupancy invariant of claim C3: every spot holds at most 3 pieces. -/
def occupancyLE3 (s : GameSession) : Prop :=
  ∀ sp ∈ s.gameState.hanamichiBoardState.spots, sp.otakuPieces.length ≤ 3

/-- Sequential application of `MOVE_PIECE` actions. -/
def applyMoves (s : GameSession) (moves : List (String × Nat)) : GameSession :=
  moves.foldl (fun st mv => gameReducerMovePiece st mv.1 mv.2) s

theorem find?_cons_pos {α : Type} (p : α → Bool) (a : α) (t : List α) (h : p a = true) :
    List.find? p (a :: t) = some a := List.find?_cons_of_pos t h

theorem find?_cons_neg {α : Type} (p : α → Bool) (a : α) (t : List α) (h : p a = false) :
    List.find? p (a :: t) = List.find? p t := List.find?_cons_of_neg t (by simp [h])

theorem mem_removePieceFromSpots {spots : List BoardSpot} {pid : String} {sp : BoardSpot}
    (h : sp ∈ removePieceFromSpots spots pid) :
    ∃ sp' ∈ spots,
      sp = { sp' with otakuPieces := sp'.otakuPieces.filter fun p => !(p.id == pid) } := by
  unfold removePieceFromSpots at h
  rcases List.mem_map.mp h with ⟨sp', hm, he⟩
  exact ⟨sp', hm, he.symm⟩

theorem mem_pushOntoSpot {l : List BoardSpot} {spotId : Nat} {piece : OtakuPiece}
    {sp : BoardSpot} (h : sp ∈ pushOntoSpot l spotId piece) :
    sp ∈ l ∨ ∃ sp' ∈ l, (sp'.id == spotId) = true ∧
      sp = { sp' with otakuPieces := sp'.otakuPieces ++ [piece] } := by
  induction l with
  | nil => simp [pushOntoSpot] at h
  | cons a t ih =>
    by_cases ha : (a.id == spotId) = true
    · simp only [pushOntoSpot, if_pos ha] at h
      rcases List.mem_cons.mp h with he | ht
      · exact Or.inr ⟨a, List.mem_cons_self a t, ha, he⟩
      · exact Or.inl (List.mem_cons_of_mem a ht)
    · simp only [pushOntoSpot, if_neg ha] at h
      rcases List.mem_cons.mp h with he | ht
      · exact Or.inl (he ▸ List.mem_cons_self a t)
      · rcases ih ht with hm | ⟨sp', hm, h1, h2⟩
        · exact Or.inl (List.mem_cons_of_mem a hm)
        · exact Or.inr ⟨sp', List.mem_cons_of_mem a hm, h1, h2⟩

theorem moveBoard_occupancy :
    ∀ (spots : List BoardSpot) (pid : String) (spotId : Nat) (up : OtakuPiece)
      (target : BoardSpot),
      spots.find? (fun sp => sp.id == spotId) = some target →
      target.otakuPieces.length ≤ 2 →
      (∀ sp ∈ spots, sp.otakuPieces.length ≤ 3) →
      ∀ sp ∈ pushOntoSpot (removePieceFromSpots spots pid) spotId up,
        sp.otakuPieces.length ≤ 3 := by
  intro spots
  induction spots with
  | nil => intro pid spotId up target hfind; simp at hfind
  | cons a t ih =>
    intro pid spotId up target hfind htarget hall sp hsp
    simp only [removePieceFromSpots, List.map_cons] at hsp
    by_cases ha : (a.id == spotId) = true
    · have htarg : target = a := by
        rw [find?_cons_pos (fun sp => sp.id == spotId) a t ha] at hfind
        exact (Option.some.inj hfind).symm
      simp only [pushOntoSpot, if_pos ha] at hsp
      rcases List.mem_cons.mp hsp with he | ht
      · subst he
        simp only [List.length_append, List.length_cons, List.length_nil]
        have hf : (a.otakuPieces.filter fun p => !(p.id == pid)).length ≤
            a.otakuPieces.length := List.length_filter_le _ _
        subst htarg
        omega
      · rcases mem_removePieceFromSpots ht with ⟨sp', hm, he⟩
        subst he
        have := hall sp' (List.mem_cons_of_mem a hm)
        have hf : (sp'.otakuPieces.filter fun p => !(p.id == pid)).length ≤
            sp'.otakuPieces.length := List.length_filter_le _ _
        simpa using by omega
    · have hfind' : t.find? (fun sp => sp.id == spotId) = some target := by
        rw [find?_cons_neg (fun sp => sp.id == spotId) a t (by simpa using ha)] at hfind
        exact hfind
      simp only [pushOntoSpot, if_neg ha] at hsp
      rcases List.mem_cons.mp hsp with he | ht
      · subst he
        have := hall a (List.mem_cons_self a t)
        have hf : (a.otakuPieces.filter fun p => !(p.id == pid)).length ≤
            a.otakuPieces.length := List.length_filter_le _ _
        simpa using by omega
      · exact ih pid spotId up target hfind' htarget
          (fun x hx => hall x (List.mem_cons_of_mem a hx)) sp ht

theorem movePiece_occupancy_step (s : GameSession) (pieceId : String) (spotId : Nat)
    (h : occupancyLE3 s) : occupancyLE3 (gameReducerMovePiece s pieceId spotId) := by
  unfold gameReducerMovePiece
  cases hfind : s.gameState.hanamichiBoardState.spots.find? (fun sp => sp.id == spotId) with
  | none => exact h
  | some target =>
    dsimp only
    by_cases hfull : 3 ≤ target.otakuPieces.length
    · rw [if_pos hfull]; exact h
    · rw [if_neg hfull]
      cases hpc : (s.players.flatMap fun pl => pl.otakuPieces).find?
          (fun p => p.id == pieceId) with
      | none => exact h
      | some piece =>
        dsimp only
        cases hg : piece.goods with
        | none => exact h
        | some g =>
          intro sp hsp
          exact moveBoard_occupancy _ pieceId spotId _ target hfind (by omega) h sp hsp

theorem applyMoves_occupancy :
    ∀ (moves : List (String × Nat)) (s : GameSession),
      occupancyLE3 s → occupancyLE3 (applyMoves s moves) := by
  intro moves
  induction moves with
  | nil => intro s h; exact h
  | cons mv rest ih =>
    intro s h
    exact ih _ (movePiece_occupancy_step s mv.1 mv.2 h)

/-- Claim C3: starting from a session whose spots each hold at most 3
pieces, any sequence of `movePiece` actions keeps every spot at 3 pieces
or fewer, and a `movePiece` aimed at a spot already holding 3 pieces
leaves the session (hence that spot's occupant list and count)
unchanged. -/
theorem movePiece_occupancy_invariant (s : GameSession) (moves : List (String × Nat))
    (h : occupancyLE3 s) :
    occupancyLE3 (applyMoves s moves) ∧
    ∀ pieceId spotId target,
      s.gameState.hanamichiBoardState.spots.find? (fun sp => sp.id == spotId) =
        some target →
      target.otakuPieces.length = 3 →
      gameReducerMovePiece s pieceId spotId = s := by
  constructor
  · exact applyMoves_occupancy moves s h
  · intro pieceId spotId target hfind hlen
    unfold gameReducerMovePiece
    rw [hfind]
    exact if_pos (by omega)

theorem movePiece_occupancy_invariant_witness :
    occupancyLE3 (applyMoves fixtureSession [("p1-b", 2), ("p1-b", 5)]) ∧
    ∀ pieceId spotId target,
      fixtureSession.gameState.hanamichiBoardState.spots.find?
        (fun sp => sp.id == spotId) = some target →
      target.otakuPieces.length = 3 →
      gameReducerMovePiece fixtureSession pieceId spotId = fixtureSession :=
  movePiece_occupancy_invariant fixtureSession [("p1-b", 2), ("p1-b", 5)]
    (by unfold occupancyLE3; decide)

theorem removePieceFromSpots_cons (a : BoardSpot) (t : List BoardSpot) (pid : String) :
    removePieceFromSpots (a :: t) pid =
      { a with otakuPieces := a.otakuPieces.filter fun p => !(p.id == pid) } ::
        removePieceFromSpots t pid := rfl

theorem find?_removePieceFromSpots :
    ∀ (spots : List BoardSpot) (pid : String) (spotId : Nat) (target : BoardSpot),
      spots.find? (fun sp => sp.id == spotId) = some target →
      (removePieceFromSpots spots pid).find? (fun sp => sp.id == spotId) =
        some { target with otakuPieces := target.otakuPieces.filter fun p => !(p.id == pid) } := by
  intro spots
  induction spots with
  | nil => intro pid spotId target h; simp at h
  | cons a t ih =>
    intro pid spotId target h
    rw [removePieceFromSpots_cons]
    by_cases ha : (a.id == spotId) = true
    · rw [find?_cons_pos (fun sp : BoardSpot => sp.id == spotId) a t ha] at h
      have he : a = target := Option.some.inj h
      subst he
      exact find?_cons_pos (fun sp : BoardSpot => sp.id == spotId)
        { a with otakuPieces := a.otakuPieces.filter fun p => !(p.id == pid) }
        (removePieceFromSpots t pid) ha
    · have ha' : (a.id == spotId) = false := by simpa using ha
      rw [find?_cons_neg (fun sp : BoardSpot => sp.id == spotId) a t ha'] at h
      rw [find?_cons_neg (fun sp : BoardSpot => sp.id == spotId)
        { a with otakuPieces := a.otakuPieces.filter fun p => !(p.id == pid) }
        (removePieceFromSpots t pid) ha']
      exact ih pid spotId target h

theorem pushOntoSpot_find :
    ∀ (l : List BoardSpot) (spotId : Nat) (up : OtakuPiece) (target : BoardSpot),
      l.find? (fun sp => sp.id == spotId) = some target →
      ∃ sp ∈ pushOntoSpot l spotId up, sp.id = target.id ∧
        sp.otakuPieces = target.otakuPieces ++ [up] := by
  intro l
  induction l with
  | nil => intro _ _ _ h; simp at h
  | cons a t ih =>
    intro spotId up target hfind
    by_cases ha : (a.id == spotId) = true
    · rw [find?_cons_pos (fun sp : BoardSpot => sp.id == spotId) a t ha] at hfind
      have he : a = target := Option.some.inj hfind
      refine ⟨{ a with otakuPieces := a.otakuPieces ++ [up] }, ?_, ?_, ?_⟩
      · simp only [pushOntoSpot, if_pos ha]
        exact List.mem_cons_self _ _
      · rw [← he]
      · rw [← he]
    · have ha' : (a.id == spotId) = false := by simpa using ha
      rw [find?_cons_neg (fun sp : BoardSpot => sp.id == spotId) a t ha'] at hfind
      rcases ih spotId up target hfind with ⟨sp, hm, h1, h2⟩
      refine ⟨sp, ?_, h1, h2⟩
      simp only [pushOntoSpot, if_neg ha]
      exact List.mem_cons_of_mem _ hm

/-- Statement of claim C4: `movePiece` leaves the session unchanged in the
three failure cases, and on success removes the piece from every prior
spot, appends it to the target spot and rewrites the canonical piece entry
to the new spot assignment. -/
def movePieceSpec (s : GameSession) (pieceId : String) (spotId : Nat) : Prop :=
  ((s.players.flatMap fun pl => pl.otakuPieces).find? (fun p => p.id == pieceId) =
      none → gameReducerMovePiece s pieceId spotId = s) ∧
  (∀ piece,
    (s.players.flatMap fun pl => pl.otakuPieces).find? (fun p => p.id == pieceId) =
      some piece →
    piece.goods = none → gameReducerMovePiece s pieceId spotId = s) ∧
  (∀ target,
    s.gameState.hanamichiBoardState.spots.find? (fun sp => sp.id == spotId) =
      some target →
    3 ≤ target.otakuPieces.length → gameReducerMovePiece s pieceId spotId = s) ∧
  (∀ target piece g,
    s.gameState.hanamichiBoardState.spots.find? (fun sp => sp.id == spotId) =
      some target →
    target.otakuPieces.length < 3 →
    (s.players.flatMap fun pl => pl.otakuPieces).find? (fun p => p.id == pieceId) =
      some piece →
    piece.goods = some g →
    (∀ sp ∈ (gameReducerMovePiece s pieceId spotId).gameState.hanamichiBoardState.spots,
      sp.id ≠ spotId → ∀ p ∈ sp.otakuPieces, p.id ≠ pieceId) ∧
    (∃ sp ∈ (gameReducerMovePiece s pieceId spotId).gameState.hanamichiBoardState.spots,
      sp.id = spotId ∧
      sp.otakuPieces =
        (target.otakuPieces.filter fun p => !(p.id == pieceId)) ++
          [{ piece with boardSpotId := some spotId }]) ∧
    (∀ pl ∈ (gameReducerMovePiece s pieceId spotId).players, ∀ p ∈ pl.otakuPieces,
      p.id = pieceId → p = { piece with boardSpotId := some spotId }))

/-- Claim C4: `movePiece(pieceId, spotId)` fails silently (session
unchanged) when the piece is missing, carries no goods, or the target spot
already holds 3 pieces; on success the piece leaves every prior occupant
list, is appended to the target spot's occupant list, and the owning
player's canonical piece entry gets the new spot assignment. -/
theorem move_piece_effects (s : GameSession) (pieceId : String) (spotId : Nat) :
    movePieceSpec s pieceId spotId := by
  refine ⟨?_, ?_, ?_, ?_⟩
  · intro hnone
    unfold gameReducerMovePiece
    cases hfind : s.gameState.hanamichiBoardState.spots.find?
        (fun sp => sp.id == spotId) with
    | none => rfl
    | some target =>
      dsimp only
      by_cases hfull : 3 ≤ target.otakuPieces.length
      · rw [if_pos hfull]
      · rw [if_neg hfull, hnone]
  · intro piece hpc hgoods
    unfold gameReducerMovePiece
    cases hfind : s.gameState.hanamichiBoardState.spots.find?
        (fun sp => sp.id == spotId) with
    | none => rfl
    | some target =>
      dsimp only
      by_cases hfull : 3 ≤ target.otakuPieces.length
      · rw [if_pos hfull]
      · rw [if_neg hfull, hpc]
        dsimp only
        rw [hgoods]
  · intro target hfind hfull
    unfold gameReducerMovePiece
    rw [hfind]
    exact if_pos hfull
  · intro target piece g hfind hlt hpc hg
    have hr : gameReducerMovePiece s pieceId spotId =
        { s with
          players := s.players.map fun player =>
            { player with otakuPieces := player.otakuPieces.map fun p =>
                if p.id == pieceId then { piece with boardSpotId := some spotId }
                else p },
          gameState := { s.gameState with hanamichiBoardState :=
            { spots := pushOntoSpot
                (removePieceFromSpots s.gameState.hanamichiBoardState.spots pieceId)
                spotId { piece with boardSpotId := some spotId } } } } := by
      unfold gameReducerMovePiece
      rw [hfind]
      dsimp only
      rw [if_neg (by omega), hpc]
      dsimp only
      rw [hg]
    have hspotid : target.id = spotId := by
      have := List.find?_some hfind
      simpa using this
    refine ⟨?_, ?_, ?_⟩
    · intro sp hsp hne p hp
      rw [hr] at hsp
      dsimp only at hsp
      rcases mem_pushOntoSpot hsp with hm | ⟨sp', hm', hcond, he⟩
      · rcases mem_removePieceFromSpots hm with ⟨sp'', _, he⟩
        subst he
        have := (List.mem_filter.mp hp).2
        simpa using this
      · exfalso
        apply hne
        rw [he]
        simpa using hcond
    · rw [hr]
      dsimp only
      have hfr := find?_removePieceFromSpots s.gameState.hanamichiBoardState.spots
        pieceId spotId target hfind
      rcases pushOntoSpot_find _ spotId { piece with boardSpotId := some spotId } _ hfr
        with ⟨sp, hm, h1, h2⟩
      exact ⟨sp, hm, by rw [h1]; exact hspotid, h2⟩
    · intro pl hpl p hp hpid
      rw [hr] at hpl
      dsimp only at hpl
      rcases List.mem_map.mp hpl with ⟨pl0, _, he⟩
      subst he
      dsimp only at hp
      rcases List.mem_map.mp hp with ⟨p0, _, he⟩
      by_cases h0 : (p0.id == pieceId) = true
      · rw [if_pos h0] at he
        exact he.symm
      · rw [if_neg h0] at he
        subst he
        exact absurd (by simpa using hpid) h0

theorem move_piece_effects_witness : movePieceSpec fixtureSession "p1-b" 2 :=
  move_piece_effects fixtureSession "p1-b" 2

/-! ## Claim C10: goods purchase frame -/

/-- Statement of claim C10: a successful purchase changes only the buying
player, deducting the price and putting the goods on the buyer's first
piece that has no goods and no board assignment. -/
def purchaseGoodsSpec (s : GameSession) (playerId : String) (goodsType : GoodsType) :
    Prop :=
  ∀ buyer availablePiece,
    s.players.find? (fun p => p.id == playerId) = some buyer →
    goodsPrice goodsType ≤ buyer.money →
    buyer.otakuPieces.find? isAvailablePiece = some availablePiece →
    availablePiece.goods = none ∧ availablePiece.boardSpotId = none ∧
    (gameReducerPurchaseGoods s playerId goodsType).id = s.id ∧
    (gameReducerPurchaseGoods s playerId goodsType).currentRound = s.currentRound ∧
    (gameReducerPurchaseGoods s playerId goodsType).currentPhase = s.currentPhase ∧
    (gameReducerPurchaseGoods s playerId goodsType).activePlayerIndex =
      s.activePlayerIndex ∧
    (gameReducerPurchaseGoods s playerId goodsType).gameState = s.gameState ∧
    (gameReducerPurchaseGoods s playerId goodsType).turnManager = s.turnManager ∧
    (gameReducerPurchaseGoods s playerId goodsType).createdAt = s.createdAt ∧
    (gameReducerPurchaseGoods s playerId goodsType).players.length =
      s.players.length ∧
    ∀ i pl, s.players.get? i = some pl →
      (pl.id ≠ playerId →
        (gameReducerPurchaseGoods s playerId goodsType).players.get? i = some pl) ∧
      (pl.id = playerId →
        (gameReducerPurchaseGoods s playerId goodsType).players.get? i = some
          { pl with
            money := pl.money - goodsPrice goodsType,
            otakuPieces := pl.otakuPieces.map fun piece =>
              if piece.id == availablePiece.id then { piece with goods := some goodsType }
              else piece })

/-- Claim C10: a successful `purchaseGoods(playerId, kind)` deducts the
kind's price from the buying player, sets the goods on that player's first
unassigned goods-free piece, and leaves every other player, the game
state (board, history), phase, round counter and turn state unchanged. -/
theorem purchase_goods_frame (s : GameSession) (playerId : String)
    (goodsType : GoodsType) : purchaseGoodsSpec s playerId goodsType := by
  intro buyer availablePiece hfind hmoney hap
  have helig : isAvailablePiece availablePiece = true := List.find?_some hap
  have hgoods : availablePiece.goods = none ∧ availablePiece.boardSpotId = none := by
    unfold isAvailablePiece at helig
    simp only [Bool.and_eq_true, Option.isNone_iff_eq_none] at helig
    exact helig
  have hr : gameReducerPurchaseGoods s playerId goodsType =
      { s with players := s.players.map fun player =>
          if player.id == playerId then
            { player with
              money := player.money - goodsPrice goodsType,
              otakuPieces := player.otakuPieces.map fun piece =>
                if piece.id == availablePiece.id then { piece with goods := some goodsType }
                else piece }
          else player } := by
    unfold gameReducerPurchaseGoods
    rw [hfind]
    dsimp only
    rw [if_neg (not_lt.mpr hmoney), hap]
  refine ⟨hgoods.1, hgoods.2, by rw [hr], by rw [hr], by rw [hr], by rw [hr],
    by rw [hr], by rw [hr], by rw [hr], by rw [hr]; exact List.length_map _ _, ?_⟩
  intro i pl hpl
  constructor
  · intro hne
    rw [hr]
    dsimp only
    rw [List.get?_map, hpl, Option.map_some']
    rw [if_neg (by simpa using hne)]
  · intro heq
    rw [hr]
    dsimp only
    rw [List.get?_map, hpl, Option.map_some']
    rw [if_pos (by simpa using heq)]

theorem purchase_goods_frame_witness :
    purchaseGoodsSpec fixtureSession "p1" GoodsType.uchiwa :=
  purchase_goods_frame fixtureSession "p1" GoodsType.uchiwa

/-! ## Claim C6: reward-card selection -/

/-- Fixture session in which the single player has already selected a
reward card this round. -/
def selectedSession : GameSession :=
  { fixtureSession with
    players := [{ fixturePlayer with
      selectedRewardCard :=
        some { id := "card-A", name := "A", rewards := ⟨3, 2, 1, 0, 0, 0⟩ } }] }

/-- Counterexample to claim C6 as stated: player p1 already selected
card-A this round, yet a second `selectRewardCard` is not rejected: the
session changes and the player's selection becomes card-B. -/
theorem select_reward_repeat_counterexample :
    (selectedSession.players.map fun p => p.selectedRewardCard.map fun c => c.id) =
      [some "card-A"] ∧
    gameReducerSelectRewardCard selectedSession "p1" "card-B" ≠ selectedSession ∧
    ((gameReducerSelectRewardCard selectedSession "p1" "card-B").players.map
      fun p => p.selectedRewardCard.map fun c => c.id) = [some "card-B"] := by
  refine ⟨by decide, by decide, by decide⟩

theorem lookupAction_map_set :
    ∀ (l : List (String × Bool)) (k : String) (b : Bool),
      l.any (fun kv => kv.1 == k) = true →
      lookupAction (l.map fun kv => if kv.1 == k then (k, b) else kv) k = some b := by
  intro l
  induction l with
  | nil => intro k b h; simp at h
  | cons kv t ih =>
    intro k b hany
    by_cases hk : (kv.1 == k) = true
    · simp only [List.map_cons, if_pos hk, lookupAction]
      rw [if_pos (by simp)]
    · simp only [List.map_cons, if_neg hk, lookupAction]
      apply ih
      simpa [hk] using hany

theorem lookupAction_append_new :
    ∀ (l : List (String × Bool)) (k : String) (b : Bool),
      l.any (fun kv => kv.1 == k) = false →
      lookupAction (l ++ [(k, b)]) k = some b := by
  intro l
  induction l with
  | nil =>
    intro k b _
    simp only [List.nil_append, lookupAction]
    rw [if_pos (by simp)]
  | cons kv t ih =>
    intro k b hany
    simp only [List.any_cons, Bool.or_eq_false_iff] at hany
    simp only [List.cons_append, lookupAction]
    rw [if_neg (by simp [hany.1])]
    exact ih k b hany.2

theorem lookupAction_setAction (l : List (String × Bool)) (k : String) (b : Bool) :
    lookupAction (setAction l k b) k = some b := by
  unfold setAction
  by_cases hany : l.any (fun kv => kv.1 == k) = true
  · rw [if_pos hany]
    have hmap : (l.map fun kv => if kv.1 == k then (kv.1, b) else kv) =
        l.map fun kv => if kv.1 == k then (k, b) else kv := by
      apply List.map_congr_left
      intro kv _
      by_cases hk : (kv.1 == k) = true
      · rw [if_pos hk, if_pos hk]
        have : kv.1 = k := by simpa using hk
        rw [this]
      · rw [if_neg hk, if_neg hk]
    rw [hmap]
    exact lookupAction_map_set l k b hany
  · rw [if_neg hany]
    refine lookupAction_append_new l k b ?_
    cases hb : l.any fun kv => kv.1 == k with
    | false => rfl
    | true => exact absurd hb hany

/-- Statement of the amended claim C6: a selection with a known card id
always succeeds, overwriting any previous selection of the same player in
the same round, marking the player's completion flag and removing the
player from the waiting list; an unknown card id is rejected unchanged. -/
def selectRewardCardSpec (s : GameSession) (playerId cardId : String) : Prop :=
  (s.gameState.rewardDistributionCards.find? (fun c => c.id == cardId) = none →
    gameReducerSelectRewardCard s playerId cardId = s) ∧
  (∀ card,
    s.gameState.rewardDistributionCards.find? (fun c => c.id == cardId) = some card →
    (gameReducerSelectRewardCard s playerId cardId).players.length =
      s.players.length ∧
    (∀ i pl, s.players.get? i = some pl →
      (pl.id = playerId →
        (gameReducerSelectRewardCard s playerId cardId).players.get? i =
          some { pl with selectedRewardCard := some card }) ∧
      (pl.id ≠ playerId →
        (gameReducerSelectRewardCard s playerId cardId).players.get? i = some pl)) ∧
    lookupAction (gameReducerSelectRewardCard s playerId cardId).turnManager.phaseActions
      playerId = some true ∧
    (gameReducerSelectRewardCard s playerId cardId).turnManager.waitingForPlayers =
      s.turnManager.waitingForPlayers.filter (fun id => !(id == playerId)) ∧
    (gameReducerSelectRewardCard s playerId cardId).gameState = s.gameState ∧
    (gameReducerSelectRewardCard s playerId cardId).currentPhase = s.currentPhase)

/-- Amended claim C6: `selectRewardCard(player, cardId)` with a known card
id always succeeds, also for a player who already selected a card this
round (the reducer does not reject a repeat selection: it overwrites
the previous one); every such selection marks the player's
phase-completion flag and removes the player from the waiting list, and
an unknown card id leaves the session unchanged. -/
theorem select_reward_card_effects (s : GameSession) (playerId cardId : String) :
    selectRewardCardSpec s playerId cardId := by
  constructor
  · intro hnone
    unfold gameReducerSelectRewardCard
    rw [hnone]
  · intro card hcard
    have hr : gameReducerSelectRewardCard s playerId cardId =
        { s with
          players := s.players.map fun player =>
            if player.id == playerId then { player with selectedRewardCard := some card }
            else player,
          turnManager := { s.turnManager with
            phaseActions := setAction s.turnManager.phaseActions playerId true,
            waitingForPlayers :=
              s.turnManager.waitingForPlayers.filter fun id => !(id == playerId) } } := by
      unfold gameReducerSelectRewardCard
      rw [hcard]
    refine ⟨by rw [hr]; exact List.length_map _ _, ?_, ?_, by rw [hr], by rw [hr],
      by rw [hr]⟩
    · intro i pl hpl
      constructor
      · intro heq
        rw [hr]
        dsimp only
        rw [List.get?_map, hpl, Option.map_some']
        rw [if_pos (by simpa using heq)]
      · intro hne
        rw [hr]
        dsimp only
        rw [List.get?_map, hpl, Option.map_some']
        rw [if_neg (by simpa using hne)]
    · rw [hr]
      exact lookupAction_setAction _ _ _

theorem select_reward_card_effects_witness :
    selectRewardCardSpec selectedSession "p1" "card-B" :=
  select_reward_card_effects selectedSession "p1" "card-B"

/-! ## Claim C5: the labor roll -/

theorem processLaborPhase_spec :
    ∀ (players : List Player) (d : Nat), 1 ≤ d → d ≤ 6 →
      (players.all fun p => p.selectedRewardCard.isSome) = true →
      ∃ ups res, processLaborPhase players d = some (ups, res) ∧
        ups.length = players.length ∧ res.length = players.length ∧
        ∀ i p, players.get? i = some p →
          ∃ card, p.selectedRewardCard = some card ∧
            ups.get? i = some (updatePlayerMoney p (card.rewards.at d)) ∧
            res.get? i = some
              { playerId := p.id, selectedCard := card.name,
                diceResult := d, reward := card.rewards.at d } := by
  intro players
  induction players with
  | nil =>
    intro d h1 h2 _
    exact ⟨[], [], rfl, rfl, rfl, by intro i p hp; simp at hp⟩
  | cons p rest ih =>
    intro d h1 h2 hall
    simp only [List.all_cons, Bool.and_eq_true] at hall
    rcases Option.isSome_iff_exists.mp hall.1 with ⟨card, hcard⟩
    rcases ih d h1 h2 hall.2 with ⟨ups, res, hproc, hul, hrl, hget⟩
    have hclr : calculateLaborReward card d = some (card.rewards.at d) := by
      unfold calculateLaborReward
      rw [if_neg (not_or.mpr ⟨by omega, by omega⟩)]
    refine ⟨updatePlayerMoney p (card.rewards.at d) :: ups,
      { playerId := p.id, selectedCard := card.name, diceResult := d,
        reward := card.rewards.at d } :: res, ?_, ?_, ?_, ?_⟩
    · simp only [processLaborPhase, hcard, hclr, hproc]
    · simp [hul]
    · simp [hrl]
    · intro i q hq
      cases i with
      | zero =>
        simp only [List.get?_cons_zero, Option.some.injEq] at hq
        subst hq
        exact ⟨card, hcard, rfl, rfl⟩
      | succ i =>
        simp only [List.get?_cons_succ] at hq ⊢
        exact hget i q hq

/-- Fixture session whose round history already holds a labor record for
the current round. -/
def labHistorySession : GameSession :=
  { selectedSession with
    gameState := { selectedSession.gameState with roundHistory :=
      [{ roundNumber := 1,
         laborResults :=
           [{ playerId := "p0", selectedCard := "X", diceResult := 2, reward := 5 }],
         oshikatsuDecisions := [], fansaResults := [] }] } }

/-- Counterexample to claim C5 as stated: the current round's history
entry already holds a labor record, and the roll does not append to it:
the resulting entry holds exactly the fresh per-player record and the
pre-existing record is gone. -/
theorem labor_history_replace_counterexample :
    labHistorySession.gameState.roundHistory =
      [{ roundNumber := 1,
         laborResults :=
           [{ playerId := "p0", selectedCard := "X", diceResult := 2, reward := 5 }],
         oshikatsuDecisions := [], fansaResults := [] }] ∧
    (gameReducerRollDiceAndProcessLabor labHistorySession 1).gameState.roundHistory =
      [{ roundNumber := 1,
         laborResults :=
           [{ playerId := "p1", selectedCard := "A", diceResult := 1, reward := 3 }],
         oshikatsuDecisions := [], fansaResults := [] }] ∧
    ¬ ({ playerId := "p0", selectedCard := "X", diceResult := 2,
         reward := 5 } : LaborResult) ∈
      ((gameReducerRollDiceAndProcessLabor labHistorySession 1).gameState.roundHistory.flatMap
        fun rr => rr.laborResults) := by
  refine ⟨by decide, by decide, by decide⟩

/-- Statement of the amended claim C5: the roll is rejected until every
player has selected a card; then each player's money becomes
`max 0 (money + rewards[d])` and the current round's history entry is
given exactly one fresh labor record per player, the entry being created
if absent and its previous labor records being replaced if present. -/
def rollDiceSpec (s : GameSession) (d : Nat) : Prop :=
  ((s.players.all fun p => p.selectedRewardCard.isSome) = false →
    gameReducerRollDiceAndProcessLabor s d = s) ∧
  ((s.players.all fun p => p.selectedRewardCard.isSome) = true →
    (gameReducerRollDiceAndProcessLabor s d).players.length = s.players.length ∧
    (∀ i p, s.players.get? i = some p →
      ∃ card, p.selectedRewardCard = some card ∧
        (gameReducerRollDiceAndProcessLabor s d).players.get? i =
          some { p with money := max 0 (p.money + card.rewards.at d) }) ∧
    (∃ entry ∈ (gameReducerRollDiceAndProcessLabor s d).gameState.roundHistory,
      entry.roundNumber = s.currentRound ∧
      entry.laborResults.length = s.players.length ∧
      ∀ i p, s.players.get? i = some p →
        ∃ card, p.selectedRewardCard = some card ∧
          entry.laborResults.get? i = some
            { playerId := p.id, selectedCard := card.name, diceResult := d,
              reward := card.rewards.at d }) ∧
    (gameReducerRollDiceAndProcessLabor s d).gameState.currentDiceResult = some d ∧
    (gameReducerRollDiceAndProcessLabor s d).currentPhase = s.currentPhase)

/-- Amended claim C5: `rollDiceAndProcessLabor` with a die value in 1..6
leaves the session unchanged unless every player selected a card; when all
selected, every player's money becomes `max 0 (money + rewards[d])` and
the current round's history entry holds exactly one fresh labor record per
player (the entry is created if absent; a pre-existing entry's labor
records are replaced, not appended to). -/
theorem roll_dice_labor_effects (s : GameSession) (d : Nat)
    (h1 : 1 ≤ d) (h6 : d ≤ 6) : rollDiceSpec s d := by
  constructor
  · intro hfalse
    unfold gameReducerRollDiceAndProcessLabor
    rw [hfalse, Bool.not_false, if_pos rfl]
  · intro htrue
    rcases processLaborPhase_spec s.players d h1 h6 htrue with
      ⟨ups, res, hproc, hul, hrl, hget⟩
    have hred : gameReducerRollDiceAndProcessLabor s d =
        { s with
          players := ups,
          gameState := { s.gameState with
            currentDiceResult := some d,
            roundHistory :=
              if (s.gameState.roundHistory.find? fun round =>
                  round.roundNumber == s.currentRound).isSome then
                s.gameState.roundHistory.map fun round =>
                  if round.roundNumber == s.currentRound then
                    { round with laborResults := res }
                  else round
              else
                s.gameState.roundHistory ++
                  [{ roundNumber := s.currentRound, laborResults := res,
                     oshikatsuDecisions := [], fansaResults := [] }] } } := by
      unfold gameReducerRollDiceAndProcessLabor
      rw [htrue, Bool.not_true, if_neg (by simp), hproc]
    refine ⟨by rw [hred]; exact hul, ?_, ?_, by rw [hred], by rw [hred]⟩
    · intro i p hp
      rcases hget i p hp with ⟨card, hc, hup, _⟩
      refine ⟨card, hc, ?_⟩
      rw [hred]
      dsimp only
      rw [hup]
      rfl
    · rw [hred]
      dsimp only
      by_cases hfound : (s.gameState.roundHistory.find? fun round =>
          round.roundNumber == s.currentRound).isSome = true
      · rw [if_pos hfound]
        rcases Option.isSome_iff_exists.mp hfound with ⟨entry0, hentry0⟩
        have hmem := List.mem_of_find?_eq_some hentry0
        have hcond := List.find?_some hentry0
        refine ⟨{ entry0 with laborResults := res }, ?_, (by simpa using hcond), hrl, ?_⟩
        · exact List.mem_map.mpr ⟨entry0, hmem, by rw [if_pos hcond]⟩
        · intro i p hp
          rcases hget i p hp with ⟨card, hc, _, hres⟩
          exact ⟨card, hc, hres⟩
      · rw [if_neg hfound]
        refine ⟨{ roundNumber := s.currentRound, laborResults := res,
                  oshikatsuDecisions := [], fansaResults := [] },
          ?_, rfl, hrl, ?_⟩
        · exact List.mem_append_right _ (List.mem_singleton.mpr rfl)
        · intro i p hp
          rcases hget i p hp with ⟨card, hc, _, hres⟩
          exact ⟨card, hc, hres⟩

theorem roll_dice_labor_effects_witness : rollDiceSpec selectedSession 1 :=
  roll_dice_labor_effects selectedSession 1 (by omega) (by omega)

/-! ## Claim C9: round trip of serialization -/

theorem toISOString_ne_empty (ms : Nat) : toISOString ms ≠ "" := by
  intro hcon
  have hd := congrArg String.data hcon
  simp [toISOString, pad4, List.cons_append] at hd

/-- Statement of claim C9: deserializing a serialized session restores the
session field-for-field, timestamp included, and a second
serialize-then-deserialize pass yields the same value again. -/
def roundtripSpec (s : GameSession) : Prop :=
  deserializeGameState (serializeGameState s) = some s ∧
  (deserializeGameState (serializeGameState s)).bind
    (fun s2 => deserializeGameState (serializeGameState s2)) = some s

/-- Claim C9: for a session with a non-empty id and a creation instant
before year 10000, `deserializeGameState (serializeGameState s)`
reproduces `s` field-for-field — the creation timestamp at millisecond
precision through the ISO round trip — and applying
serialize-then-deserialize to the result again yields the same value. -/
theorem serialize_roundtrip (s : GameSession) (hid : s.id ≠ "")
    (hdate : s.createdAt < 253402300800000) : roundtripSpec s := by
  have hparse := parse_toISOString s.createdAt hdate
  have hidb : (s.id == "") = false := beq_eq_false_iff_ne.mpr hid
  have hiso : (toISOString s.createdAt == "") = false :=
    beq_eq_false_iff_ne.mpr (toISOString_ne_empty s.createdAt)
  have h1 : deserializeGameState (serializeGameState s) = some s := by
    unfold deserializeGameState serializeGameState
    dsimp only
    rw [if_neg (by simp [hidb]), if_neg (by simp [hiso]), hparse]
  refine ⟨h1, ?_⟩
  rw [h1]
  exact h1

theorem serialize_roundtrip_witness : roundtripSpec fixtureSession :=
  serialize_roundtrip fixtureSession (by decide) (by decide)

end OshiGame
